import Mathlib

/-!
# Verification of the terminal Snake game (`snake_game.py`)

Shallow embedding of the game logic of `snake_game.py` in Lean 4.

Modelling decisions:

* Python integers are unbounded, so positions, dimensions and the score are
  `Int`.  A `Position` is the pair `(x, y)`.
* The mutable object `SnakeGame` becomes a record; each Python method becomes
  a pure function from the record (plus its explicit inputs) to the record.
* Randomness (`random.randint`) is modelled by an explicit stream
  `ℕ → Pos` of successive samples; by construction of `randint(1, w-2)` /
  `randint(1, h-2)` every sample lies in the interior of the board, which is
  a hypothesis where needed.  The unbounded retry loop of `generate_food`
  is modelled with `Nat.find` over the stream: the loop returns the first
  sample that is not on the snake, and exists exactly when some sample is
  free.
* `move_snake` calls `self.generate_food()` after prepending the new head;
  this call is abstracted as a function `foodGen : List Pos → Pos` of the
  updated snake.  A loop iteration of `run` completes only if that call (if
  the move makes one — `food_call` computes its argument, or `none`)
  returned, and a returning `generate_food` yields an interior cell off the
  list it was called on (proved below); `ValidFoodGen` states exactly this
  conditional, call-site-scoped guarantee and is what the reachability
  relation assumes of `foodGen`.  When the updated snake covers the whole
  interior the guarantee is unsatisfiable and no successor state exists,
  matching the real retry loop, which then never returns.
* `self.snake[0]` on an empty list would raise `IndexError` in Python; the
  snake is a nonempty list in every reachable state, and the embedding
  returns the state unchanged in that (unreachable) case.
* The 200 ms polling loop of `run` is modelled by `poll_window` over the
  finite list of successive `get_input()` results (`none` = no key pending
  at that poll); the loop stops at the first `some`.
-/

abbrev Pos : Type := Int × Int

/-- The state owned by the Python class `SnakeGame`:
width, height, snake (head-first list of cells), direction vector, food
cell, score, and the game-over flag. -/
structure SnakeGame where
  width : Int
  height : Int
  snake : List Pos
  direction : Pos
  food : Pos
  score : Int
  game_over : Bool
  deriving DecidableEq

/-- The interior playable area `[1, width-2] × [1, height-2]`: exactly the
range of `(random.randint(1, width-2), random.randint(1, height-2))`. -/
def InInterior (w h : Int) (p : Pos) : Prop :=
  1 ≤ p.1 ∧ p.1 ≤ w - 2 ∧ 1 ≤ p.2 ∧ p.2 ≤ h - 2

instance (w h : Int) (p : Pos) : Decidable (InInterior w h p) := by
  unfold InInterior; infer_instance

/-- `generate_food` (lines 24-29): retry loop `while True: food = randint…;
if food not in self.snake: return food`.  The stream of `randint` samples is
explicit; the loop returns the stream value at the first index whose sample
is not on the snake, and the hypothesis `hex` states that such an index
exists (the loop terminates exactly on that condition). -/
def generate_food (snake : List Pos) (stream : ℕ → Pos)
    (hex : ∃ n, stream n ∉ snake) : Pos :=
  stream (Nat.find hex)

/-- The `directions` dict of `update_direction` (lines 88-93), as a lookup
from a key character to an optional direction vector. -/
def directions (key : Char) : Option Pos :=
  if key = 'w' then some (0, -1)
  else if key = 's' then some (0, 1)
  else if key = 'a' then some (-1, 0)
  else if key = 'd' then some (1, 0)
  else none

/-- `update_direction` (lines 86-99): if the key maps to a direction and
that direction is not the exact opposite of the current one, store it;
otherwise leave the state unchanged. -/
def update_direction (g : SnakeGame) (key : Char) : SnakeGame :=
  match directions key with
  | none => g
  | some new_direction =>
    if (new_direction.1 * -1, new_direction.2 * -1) ≠ g.direction then
      { g with direction := new_direction }
    else g

/-- `move_snake` (lines 101-126).  `foodGen` abstracts the call
`self.generate_food()` made after the new head has been prepended (its
argument is the updated snake).  The empty-snake case is unreachable
(Python would raise `IndexError` on `self.snake[0]`). -/
def move_snake (g : SnakeGame) (foodGen : List Pos → Pos) : SnakeGame :=
  match g.snake with
  | [] => g
  | (head_x, head_y) :: _ =>
    let new_head : Pos := (head_x + g.direction.1, head_y + g.direction.2)
    if new_head.1 ≤ 0 ∨ new_head.1 ≥ g.width - 1 ∨
        new_head.2 ≤ 0 ∨ new_head.2 ≥ g.height - 1 then
      { g with game_over := true }
    else if new_head ∈ g.snake then
      { g with game_over := true }
    else if new_head = g.food then
      { g with snake := new_head :: g.snake,
               score := g.score + 10,
               food := foodGen (new_head :: g.snake) }
    else
      { g with snake := (new_head :: g.snake).dropLast }

/-- `__init__` (lines 15-22) with the default-argument dimensions left
symbolic.  `f0` stands for the value returned by the `self.generate_food()`
call; `//` is Python floor division, i.e. `Int.fdiv`. -/
def init_game (w h : Int) (f0 : Pos) : SnakeGame :=
  { width := w
    height := h
    snake := [(Int.fdiv w 2, Int.fdiv h 2)]
    direction := (1, 0)
    food := f0
    score := 0
    game_over := false }

/-- The body of one `run` loop iteration after the input window (lines
146-152), with the quit check factored out by the caller: apply the
direction update when a key was observed, then move the snake. -/
def tick (g : SnakeGame) (key : Option Char) (foodGen : List Pos → Pos) :
    SnakeGame :=
  match key with
  | some k => move_snake (update_direction g k) foodGen
  | none => move_snake g foodGen

/-- The per-tick input window of `run` (lines 137-144): one entry of the
list per `get_input()` poll during the 200 ms window (`none` = no key
pending); the loop breaks at the first poll that returns a key. -/
def poll_window : List (Option Char) → Option Char
  | [] => none
  | some k :: _ => some k
  | none :: rest => poll_window rest

/-- Written from the spec's words, for comparison with `poll_window`:
"only the last command observed during the window is applied" — the last
pending command of the window. -/
def last_command (polls : List (Option Char)) : Option Char :=
  (polls.filterMap id).getLast?

/-- The argument of the one `self.generate_food()` call a move can make:
`move_snake` calls it exactly when the move reaches the eat branch, on the
snake with the new head already prepended; `none` when no call happens
(wall or self collision, no food eaten, or empty snake).  The branch
conditions are those of `move_snake`, verbatim. -/
def food_call (g : SnakeGame) : Option (List Pos) :=
  match g.snake with
  | [] => none
  | (head_x, head_y) :: _ =>
    let new_head : Pos := (head_x + g.direction.1, head_y + g.direction.2)
    if new_head.1 ≤ 0 ∨ new_head.1 ≥ g.width - 1 ∨
        new_head.2 ≤ 0 ∨ new_head.2 ≥ g.height - 1 then none
    else if new_head ∈ g.snake then none
    else if new_head = g.food then some (new_head :: g.snake)
    else none

/-- The state `move_snake` runs on during one loop iteration of `run`:
the direction update has been applied when a key was observed. -/
def apply_key (g : SnakeGame) (key : Option Char) : SnakeGame :=
  match key with
  | some k => update_direction g k
  | none => g

/-- What a *returning* `self.generate_food()` call guarantees during a move
from `g`: if the move calls the generator (on the updated snake `s`, see
`food_call`), the returned cell is interior and not on `s`.  Vacuous when
the move makes no call; when `s` covers the whole interior nothing can
satisfy it — faithfully so, since `generate_food`'s retry loop then never
returns and the iteration never completes. -/
def ValidFoodGen (w h : Int) (g : SnakeGame) (foodGen : List Pos → Pos) :
    Prop :=
  ∀ s : List Pos, food_call g = some s →
    InInterior w h (foodGen s) ∧ foodGen s ∉ s

/-- The states an execution of `run` can reach: the freshly constructed
game (with food as guaranteed by `generate_food`), plus one completed loop
iteration from a reachable state — `run` iterates only while `game_over`
is false, a `'q'` key breaks out of the loop before any state change, and
an iteration completes only if its `generate_food` call (if any) returned,
which is what `ValidFoodGen` records about the call actually made. -/
inductive Reachable (w h : Int) : SnakeGame → Prop where
  | init (f0 : Pos)
      (hf : InInterior w h f0 ∧ f0 ∉ [((Int.fdiv w 2 : Int), Int.fdiv h 2)]) :
      Reachable w h (init_game w h f0)
  | step (g : SnakeGame) (key : Option Char) (foodGen : List Pos → Pos)
      (hfg : ValidFoodGen w h (apply_key g key) foodGen)
      (hg : Reachable w h g)
      (hrun : g.game_over = false) (hq : key ≠ some 'q') :
      Reachable w h (tick g key foodGen)

/-! ## Helper lemmas -/

/-- `update_direction` writes at most the `direction` field. -/
theorem update_direction_fields (g : SnakeGame) (key : Char) :
    (update_direction g key).width = g.width ∧
    (update_direction g key).height = g.height ∧
    (update_direction g key).snake = g.snake ∧
    (update_direction g key).food = g.food ∧
    (update_direction g key).score = g.score ∧
    (update_direction g key).game_over = g.game_over := by
  unfold update_direction
  rcases directions key with _ | nd
  · exact ⟨rfl, rfl, rfl, rfl, rfl, rfl⟩
  · dsimp only
    split <;> exact ⟨rfl, rfl, rfl, rfl, rfl, rfl⟩

/-- `move_snake` keeps the snake duplicate-free: the only branch that adds
a cell first checks `new_head in self.snake`. -/
theorem move_snake_nodup (g : SnakeGame) (fg : List Pos → Pos)
    (hnd : g.snake.Nodup) : (move_snake g fg).snake.Nodup := by
  obtain ⟨w, h, snake, dir, fd, sc, go⟩ := g
  dsimp only at hnd
  rcases snake with _ | ⟨⟨hx, hy⟩, rest⟩
  · exact hnd
  · dsimp only [move_snake]
    split
    · exact hnd
    · split
      · exact hnd
      · rename_i hmem
        split
        · exact List.nodup_cons.mpr ⟨hmem, hnd⟩
        · exact List.Nodup.sublist (List.dropLast_sublist _)
            (List.nodup_cons.mpr ⟨hmem, hnd⟩)

/-- `move_snake` keeps the food off the snake, provided the food generator
call it makes (if it makes one — see `food_call`) lands off the updated
snake. -/
theorem move_snake_food_not_mem (g : SnakeGame) (fg : List Pos → Pos)
    (hfg : ∀ s : List Pos, food_call g = some s → fg s ∉ s)
    (hfood : g.food ∉ g.snake) :
    (move_snake g fg).food ∉ (move_snake g fg).snake := by
  obtain ⟨w, h, snake, dir, fd, sc, go⟩ := g
  dsimp only at hfood hfg
  rcases snake with _ | ⟨⟨hx, hy⟩, rest⟩
  · exact hfood
  · dsimp only [move_snake]
    dsimp only [food_call] at hfg
    split
    · exact hfood
    · rename_i hwall
      rw [if_neg hwall] at hfg
      split
      · exact hfood
      · rename_i hmem
        rw [if_neg hmem] at hfg
        split
        · rename_i hfd
          rw [if_pos hfd] at hfg
          exact hfg _ rfl
        · rename_i hfd
          intro hin
          rcases List.mem_cons.mp ((List.dropLast_sublist _).subset hin) with
            heq | hin'
          · exact hfd heq.symm
          · exact hfood hin'

/-- One loop iteration is the move from the key-updated state. -/
theorem tick_eq_move_snake (g : SnakeGame) (key : Option Char)
    (fg : List Pos → Pos) : tick g key fg = move_snake (apply_key g key) fg := by
  rcases key with _ | k <;> rfl

/-- `move_snake` never clears the game-over flag. -/
theorem move_snake_game_over_mono (g : SnakeGame) (fg : List Pos → Pos)
    (hgo : g.game_over = true) : (move_snake g fg).game_over = true := by
  obtain ⟨w, h, snake, dir, fd, sc, go⟩ := g
  dsimp only at hgo
  rcases snake with _ | ⟨⟨hx, hy⟩, rest⟩
  · exact hgo
  · dsimp only [move_snake]
    split
    · rfl
    · split
      · rfl
      · split
        · exact hgo
        · exact hgo

/-- One loop iteration never clears the game-over flag. -/
theorem tick_game_over_mono (g : SnakeGame) (key : Option Char)
    (fg : List Pos → Pos) (hgo : g.game_over = true) :
    (tick g key fg).game_over = true := by
  rcases key with _ | k
  · simpa [tick] using move_snake_game_over_mono g fg hgo
  · have h1 : (update_direction g k).game_over = true := by
      rw [(update_direction_fields g k).2.2.2.2.2]; exact hgo
    simpa [tick] using move_snake_game_over_mono (update_direction g k) fg h1

/-- In every reachable state the snake is duplicate-free. -/
theorem reachable_nodup {w h : Int} {g : SnakeGame}
    (hr : Reachable w h g) : g.snake.Nodup := by
  induction hr with
  | init f0 hf => simp [init_game]
  | step g key fg hfg hg hrun hq ih =>
    rcases key with _ | k
    · simpa [tick] using move_snake_nodup g fg ih
    · have hsn : (update_direction g k).snake = g.snake :=
        (update_direction_fields g k).2.2.1
      have := move_snake_nodup (update_direction g k) fg (by rw [hsn]; exact ih)
      simpa [tick] using this

/-- In every reachable state the food is off the snake. -/
theorem reachable_food {w h : Int} {g : SnakeGame}
    (hr : Reachable w h g) : g.food ∉ g.snake := by
  induction hr with
  | init f0 hf => simpa [init_game] using hf.2
  | step g key fg hfg hg hrun hq ih =>
    rw [tick_eq_move_snake]
    have hfg' : ∀ s : List Pos, food_call (apply_key g key) = some s →
        fg s ∉ s := fun s hs => (hfg s hs).2
    refine move_snake_food_not_mem (apply_key g key) fg hfg' ?_
    rcases key with _ | k
    · exact ih
    · have h1 : (update_direction g k).food = g.food :=
        (update_direction_fields g k).2.2.2.1
      have h2 : (update_direction g k).snake = g.snake :=
        (update_direction_fields g k).2.2.1
      show (update_direction g k).food ∉ (update_direction g k).snake
      rw [h1, h2]
      exact ih

/-! ## Claims -/

/-- Claim C2: in every reachable state with the game-over flag false the
snake's segments are pairwise distinct, and a loop iteration that does not
set the game-over flag preserves this distinctness. -/
theorem C2_snake_nodup :
    (∀ (w h : Int) (g : SnakeGame), Reachable w h g →
      g.game_over = false → g.snake.Nodup) ∧
    (∀ (g : SnakeGame) (key : Option Char) (fg : List Pos → Pos),
      g.snake.Nodup → (tick g key fg).game_over = false →
      (tick g key fg).snake.Nodup) := by
  constructor
  · intro w h g hr _
    exact reachable_nodup hr
  · intro g key fg hnd _
    rcases key with _ | k
    · simpa [tick] using move_snake_nodup g fg hnd
    · have hsn : (update_direction g k).snake = g.snake :=
        (update_direction_fields g k).2.2.1
      have := move_snake_nodup (update_direction g k) fg (by rw [hsn]; exact hnd)
      simpa [tick] using this

theorem C2_witness :
    (tick (init_game 10 10 (6, 5)) none (fun _ => (1, 1))).snake.Nodup ∧
    (tick (init_game 40 20 (1, 1)) (some 'd') (fun _ => (1, 1))).snake.Nodup :=
  ⟨C2_snake_nodup.1 10 10 _
      (Reachable.step (init_game 10 10 (6, 5)) none (fun _ => (1, 1))
        (by
          intro s hs
          have hs' : some [((6 : Int), (5 : Int)), (5, 5)] = some s := hs
          obtain rfl := Option.some.inj hs'
          decide)
        (Reachable.init (6, 5) (by decide)) rfl (by simp))
      (by decide),
   C2_snake_nodup.2 _ (some 'd') _ (by decide) (by decide)⟩

/-- Claim C5: a command mapping to the exact opposite of the current
direction leaves the stored direction unchanged; any other direction
command is stored (touching no other field); keys outside the `directions`
dict leave the whole state unchanged. -/
theorem C5_update_direction (g : SnakeGame) (key : Char) :
    (directions key = none → update_direction g key = g) ∧
    (∀ nd : Pos, directions key = some nd →
      ((nd.1 * -1, nd.2 * -1) = g.direction → update_direction g key = g) ∧
      ((nd.1 * -1, nd.2 * -1) ≠ g.direction →
        update_direction g key = { g with direction := nd })) := by
  constructor
  · intro hnone
    unfold update_direction
    rw [hnone]
  · intro nd hsome
    constructor
    · intro hop
      unfold update_direction
      rw [hsome]
      dsimp only
      rw [if_neg (fun hc => hc hop)]
    · intro hne
      unfold update_direction
      rw [hsome]
      dsimp only
      rw [if_pos hne]

theorem C5_witness :
    update_direction (init_game 40 20 (1, 1)) 'a' = init_game 40 20 (1, 1) ∧
    update_direction (init_game 40 20 (1, 1)) 'w' =
      { init_game 40 20 (1, 1) with direction := (0, -1) } :=
  ⟨((C5_update_direction (init_game 40 20 (1, 1)) 'a').2 (-1, 0) rfl).1
      (by decide),
   ((C5_update_direction (init_game 40 20 (1, 1)) 'w').2 (0, -1) rfl).2
      (by decide)⟩

/-- Claim C8: the game-over flag starts false, no loop iteration ever
resets it (once true it stays true — the terminated state is absorbing),
and a move sets it only upon a terminal collision: wall contact or a snake
segment at the new head. -/
theorem C8_game_over_absorbing (w h : Int) (f0 : Pos) (g : SnakeGame)
    (key : Option Char) (fg : List Pos → Pos) :
    (init_game w h f0).game_over = false ∧
    (g.game_over = true → (tick g key fg).game_over = true) ∧
    (∀ hx hy : Int, ∀ rest : List Pos, g.snake = (hx, hy) :: rest →
      g.game_over = false → (move_snake g fg).game_over = true →
      (hx + g.direction.1 ≤ 0 ∨ hx + g.direction.1 ≥ g.width - 1 ∨
        hy + g.direction.2 ≤ 0 ∨ hy + g.direction.2 ≥ g.height - 1) ∨
      (hx + g.direction.1, hy + g.direction.2) ∈ g.snake) := by
  refine ⟨rfl, fun hgo => tick_game_over_mono g key fg hgo, ?_⟩
  intro hx hy rest hsnake hrun hgo
  by_contra hnc
  rw [not_or] at hnc
  obtain ⟨hwall, hmem⟩ := hnc
  obtain ⟨w', h', snake, dir, fd, sc, go⟩ := g
  dsimp only at hsnake hrun hwall hmem hgo
  subst hsnake
  subst hrun
  dsimp only [move_snake] at hgo
  rw [if_neg hwall, if_neg hmem] at hgo
  split at hgo <;> simp at hgo

theorem C8_witness :
    (tick { width := 4, height := 4, snake := [(1, 1)], direction := (1, 0),
            food := (2, 2), score := 0, game_over := true }
      none (fun _ => (2, 2))).game_over = true ∧
    ((2 + (1 : Int) ≤ 0 ∨ 2 + (1 : Int) ≥ 4 - 1 ∨
        1 + (0 : Int) ≤ 0 ∨ 1 + (0 : Int) ≥ 3 - 1) ∨
      (2 + (1 : Int), 1 + (0 : Int)) ∈ [((2 : Int), (1 : Int))]) :=
  ⟨(C8_game_over_absorbing 4 4 (1, 1)
      { width := 4, height := 4, snake := [(1, 1)], direction := (1, 0),
        food := (2, 2), score := 0, game_over := true }
      none (fun _ => (2, 2))).2.1 rfl,
   (C8_game_over_absorbing 4 3 (1, 1)
      { width := 4, height := 3, snake := [(2, 1)], direction := (1, 0),
        food := (1, 1), score := 0, game_over := false }
      none (fun _ => (1, 1))).2.2 2 1 [] rfl rfl (by decide)⟩

/-- Claim C10: a freshly constructed game has a one-segment snake at
`(width // 2, height // 2)`, direction `(1, 0)` (right), score `0`, and the
game-over flag false. -/
theorem C10_init_game (w h : Int) (f0 : Pos) :
    (init_game w h f0).snake = [(Int.fdiv w 2, Int.fdiv h 2)] ∧
    (init_game w h f0).direction = (1, 0) ∧
    (init_game w h f0).score = 0 ∧
    (init_game w h f0).game_over = false :=
  ⟨rfl, rfl, rfl, rfl⟩

/-- Claim C3: when the new head `(hx, hy) + direction` lies on or outside
the border, `move_snake` sets only the game-over flag: snake, score,
direction and food are exactly those of the state just before the move. -/
theorem C3_wall_collision (g : SnakeGame) (fg : List Pos → Pos)
    (hx hy : Int) (rest : List Pos)
    (hsnake : g.snake = (hx, hy) :: rest)
    (hrun : g.game_over = false)
    (hwall : hx + g.direction.1 ≤ 0 ∨ hx + g.direction.1 ≥ g.width - 1 ∨
      hy + g.direction.2 ≤ 0 ∨ hy + g.direction.2 ≥ g.height - 1) :
    move_snake g fg = { g with game_over := true } := by
  obtain ⟨w, h, snake, dir, fd, sc, go⟩ := g
  dsimp only at hsnake hwall ⊢
  subst hsnake
  dsimp only [move_snake]
  rw [if_pos hwall]

theorem C3_witness :
    move_snake
      { width := 4, height := 3, snake := [(2, 1)], direction := (1, 0),
        food := (1, 1), score := 0, game_over := false }
      (fun _ => (1, 1)) =
    { width := 4, height := 3, snake := [(2, 1)], direction := (1, 0),
      food := (1, 1), score := 0, game_over := true } :=
  C3_wall_collision
    { width := 4, height := 3, snake := [(2, 1)], direction := (1, 0),
      food := (1, 1), score := 0, game_over := false }
    (fun _ => (1, 1)) 2 1 [] rfl rfl (by decide)

/-- Claim C4: with the new head inside the border and off the snake, an
eating move (new head = food) grows the snake by exactly one segment, adds
exactly 10 to the score and regenerates the food from the updated snake; a
non-eating move keeps length and score, prepending the new head and
dropping the tail. -/
theorem C4_eat_grow (g : SnakeGame) (fg : List Pos → Pos)
    (hx hy : Int) (rest : List Pos)
    (hsnake : g.snake = (hx, hy) :: rest)
    (hrun : g.game_over = false)
    (hwall : ¬(hx + g.direction.1 ≤ 0 ∨ hx + g.direction.1 ≥ g.width - 1 ∨
      hy + g.direction.2 ≤ 0 ∨ hy + g.direction.2 ≥ g.height - 1))
    (hself : (hx + g.direction.1, hy + g.direction.2) ∉ g.snake) :
    ((hx + g.direction.1, hy + g.direction.2) = g.food →
      (move_snake g fg).snake.length = g.snake.length + 1 ∧
      (move_snake g fg).score = g.score + 10 ∧
      (move_snake g fg).food =
        fg ((hx + g.direction.1, hy + g.direction.2) :: g.snake)) ∧
    ((hx + g.direction.1, hy + g.direction.2) ≠ g.food →
      (move_snake g fg).snake.length = g.snake.length ∧
      (move_snake g fg).score = g.score ∧
      (move_snake g fg).snake =
        ((hx + g.direction.1, hy + g.direction.2) :: g.snake).dropLast) := by
  obtain ⟨w, h, snake, dir, fd, sc, go⟩ := g
  dsimp only at hsnake hwall hself ⊢
  subst hsnake
  constructor
  · intro hfd
    dsimp only [move_snake]
    rw [if_neg hwall, if_neg hself, if_pos hfd]
    exact ⟨rfl, rfl, rfl⟩
  · intro hfd
    dsimp only [move_snake]
    rw [if_neg hwall, if_neg hself, if_neg hfd]
    refine ⟨?_, rfl, rfl⟩
    simp [List.length_dropLast]

theorem C4_witness :
    (move_snake
      { width := 10, height := 10, snake := [(5, 5)], direction := (1, 0),
        food := (6, 5), score := 0, game_over := false }
      (fun _ => (1, 1))).snake.length = 2 ∧
    (move_snake
      { width := 10, height := 10, snake := [(5, 5)], direction := (1, 0),
        food := (6, 5), score := 0, game_over := false }
      (fun _ => (1, 1))).score = 10 ∧
    (move_snake
      { width := 10, height := 10, snake := [(5, 5)], direction := (1, 0),
        food := (7, 7), score := 0, game_over := false }
      (fun _ => (1, 1))).snake.length = 1 := by
  refine ⟨?_, ?_, ?_⟩
  · exact ((C4_eat_grow
      { width := 10, height := 10, snake := [(5, 5)], direction := (1, 0),
        food := (6, 5), score := 0, game_over := false }
      (fun _ => (1, 1)) 5 5 [] rfl rfl (by decide) (by decide)).1
        (by decide)).1
  · exact ((C4_eat_grow
      { width := 10, height := 10, snake := [(5, 5)], direction := (1, 0),
        food := (6, 5), score := 0, game_over := false }
      (fun _ => (1, 1)) 5 5 [] rfl rfl (by decide) (by decide)).1
        (by decide)).2.1
  · exact ((C4_eat_grow
      { width := 10, height := 10, snake := [(5, 5)], direction := (1, 0),
        food := (7, 7), score := 0, game_over := false }
      (fun _ => (1, 1)) 5 5 [] rfl rfl (by decide) (by decide)).2
        (by decide)).1

/-- Claim C9: a new head that lands (inside the border) on the current
last segment of a snake of length ≥ 2 ends the game: the self-collision
check `new_head in self.snake` runs against the snake with its tail still
in place, even though a non-eating move would vacate that tail cell. -/
theorem C9_tail_collision (g : SnakeGame) (fg : List Pos → Pos)
    (hx hy : Int) (rest : List Pos)
    (hsnake : g.snake = (hx, hy) :: rest)
    (hrun : g.game_over = false)
    (hlen : 2 ≤ g.snake.length)
    (hwall : ¬(hx + g.direction.1 ≤ 0 ∨ hx + g.direction.1 ≥ g.width - 1 ∨
      hy + g.direction.2 ≤ 0 ∨ hy + g.direction.2 ≥ g.height - 1))
    (htail : g.snake.getLast? = some (hx + g.direction.1, hy + g.direction.2)) :
    move_snake g fg = { g with game_over := true } := by
  have hmem : (hx + g.direction.1, hy + g.direction.2) ∈ g.snake :=
    List.mem_of_mem_getLast? htail
  obtain ⟨w, h, snake, dir, fd, sc, go⟩ := g
  dsimp only at hsnake hwall hmem ⊢
  subst hsnake
  dsimp only [move_snake]
  rw [if_neg hwall, if_pos hmem]

theorem C9_witness :
    move_snake
      { width := 4, height := 3, snake := [(2, 1), (1, 1)],
        direction := (-1, 0), food := (1, 1), score := 0,
        game_over := false }
      (fun _ => (1, 1)) =
    { width := 4, height := 3, snake := [(2, 1), (1, 1)],
      direction := (-1, 0), food := (1, 1), score := 0,
      game_over := true } :=
  C9_tail_collision
    { width := 4, height := 3, snake := [(2, 1), (1, 1)],
      direction := (-1, 0), food := (1, 1), score := 0,
      game_over := false }
    (fun _ => (1, 1)) 2 1 [(1, 1)] rfl rfl (by decide) (by decide)
    (by decide)

/-- Claim C6: whatever `generate_food` returns lies in the interior
playable area (every `randint` sample does) and is not a snake segment (the
loop's acceptance test); and in every reachable state the food is off the
snake. -/
theorem C6_food_off_snake :
    (∀ (w h : Int) (snake : List Pos) (stream : ℕ → Pos),
      (∀ n, InInterior w h (stream n)) →
      ∀ hex : ∃ n, stream n ∉ snake,
        InInterior w h (generate_food snake stream hex) ∧
        generate_food snake stream hex ∉ snake) ∧
    (∀ (w h : Int) (g : SnakeGame), Reachable w h g → g.food ∉ g.snake) := by
  constructor
  · intro w h snake stream hstream hex
    exact ⟨hstream _, Nat.find_spec hex⟩
  · intro w h g hr
    exact reachable_food hr

theorem C6_witness :
    (InInterior 4 4 (generate_food [((2 : Int), (2 : Int))]
        (fun _ => (1, 1)) ⟨0, by decide⟩) ∧
      generate_food [((2 : Int), (2 : Int))] (fun _ => (1, 1))
        ⟨0, by decide⟩ ∉ [((2 : Int), (2 : Int))]) ∧
    (tick (init_game 10 10 (6, 5)) none (fun _ => (1, 1))).food ∉
      (tick (init_game 10 10 (6, 5)) none (fun _ => (1, 1))).snake :=
  ⟨C6_food_off_snake.1 4 4 [(2, 2)] (fun _ => (1, 1))
      (fun _ => (by decide : InInterior 4 4 (1, 1))) ⟨0, by decide⟩,
   C6_food_off_snake.2 10 10 _
     (Reachable.step (init_game 10 10 (6, 5)) none (fun _ => (1, 1))
       (by
         intro s hs
         have hs' : some [((6 : Int), (5 : Int)), (5, 5)] = some s := hs
         obtain rfl := Option.some.inj hs'
         decide)
       (Reachable.init (6, 5) (by decide)) rfl (by simp))⟩

/-- Claim C7: if the sample stream eventually hits every interior cell (the
probability-one behaviour of `random.randint`) and at least one interior
cell is free of the snake, then the retry loop of `generate_food` finds a
free sample, i.e. the loop terminates and the returned cell is off the
snake. -/
theorem C7_generate_food_terminates (w h : Int) (snake : List Pos)
    (stream : ℕ → Pos)
    (hfair : ∀ p : Pos, InInterior w h p → ∃ n, stream n = p)
    (hfree : ∃ p : Pos, InInterior w h p ∧ p ∉ snake) :
    ∃ hex : ∃ n, stream n ∉ snake,
      generate_food snake stream hex ∉ snake := by
  obtain ⟨p, hp, hps⟩ := hfree
  obtain ⟨n, hn⟩ := hfair p hp
  have hex : ∃ m, stream m ∉ snake := ⟨n, by rw [hn]; exact hps⟩
  exact ⟨hex, Nat.find_spec hex⟩

theorem C7_witness :
    ∃ hex : ∃ n, (fun _ : ℕ => ((1 : Int), (1 : Int))) n ∉ ([] : List Pos),
      generate_food [] (fun _ => (1, 1)) hex ∉ ([] : List Pos) :=
  C7_generate_food_terminates 3 3 [] (fun _ => (1, 1))
    (fun p hp => ⟨0, by
      obtain ⟨a, b⟩ := p
      have hp' : 1 ≤ a ∧ a ≤ 1 ∧ 1 ≤ b ∧ b ≤ 1 := hp
      simp only [Prod.mk.injEq]
      omega⟩)
    ⟨(1, 1), by decide, by decide⟩

/-- Claim C1 counterexample: the polling loop of `run` breaks at the first
key it sees, so with the commands `d` then `a` pending in one window the
applied command is `d`, not the last pending command `a`. -/
theorem C1_counterexample :
    ¬ (∀ polls : List (Option Char), 2 ≤ (polls.filterMap id).length →
        poll_window polls = last_command polls) := by
  intro hall
  exact absurd (hall [some 'd', some 'a'] (by decide)) (by decide)

/-- Claim C1 (amended): the command applied for a tick is the *first*
command observed during the window — the first key of any kind, a quit
command included, short-circuits the remaining polling, whatever commands
are still pending after it. -/
theorem C1_first_command_wins (pre : List (Option Char)) (k : Char)
    (rest : List (Option Char)) :
    (∀ x ∈ pre, x = none) → poll_window (pre ++ some k :: rest) = some k := by
  induction pre with
  | nil => intro _; rfl
  | cons a tl ih =>
    intro hpre
    have ha : a = none := hpre a (List.mem_cons_self a tl)
    subst ha
    show poll_window (tl ++ some k :: rest) = some k
    exact ih (fun x hx => hpre x (List.mem_cons_of_mem _ hx))

theorem C1_witness :
    poll_window [none, some 'q', some 'd'] = some 'q' :=
  C1_first_command_wins [none] 'q' [some 'd'] (by decide)
